import Mathlib

/-!
Verification of the NTP server monitor (`find_nearest_ntp_servers8.py`).

Shallow embedding conventions:
* Python floats carrying `float('inf')` / `float('-inf')` sentinels are
  modelled by `Flt := WithBot (WithTop ℚ)`: `Flt.fin q` is a finite value,
  `Flt.pinf` is `float('inf')`, `Flt.ninf` is `float('-inf')`.
* The network (ntplib) is an oracle `Env : String → Option NetOutcome`:
  `none` means the request raised or timed out (the `except` branch of
  `query_ntp_server`), `some o` carries the measured elapsed wall-clock
  seconds and the protocol response fields the program reads.
* The global mutable dict `server_stats` becomes an explicit
  `StatsMap : String → ServerStats` threaded through `query_ntp_server`
  and `get_ntp_data` (each query only writes its own key, so sequential
  state passing is exact).
* Python's `sorted(results, key=lambda x: x[1])` is a stable sort on the
  rtt field; it is modelled by `List.insertionSort` on `·.rtt ≤ ·.rtt`,
  whose `orderedInsert` places an earlier element before any later
  element of equal key — the same stability contract as CPython's sort.
* The curses main loop becomes a step function `uiStep` over an explicit
  `AppState`; one step consumes one `getch()` outcome (an integer key
  code, `-1` when the 100 ms window timeout elapses with no input).
-/

/-- Extended rationals modelling Python floats together with the
`float('inf')` / `float('-inf')` sentinels used by the program. -/
abbrev Flt : Type := WithBot (WithTop ℚ)

/-- A finite float value. -/
def Flt.fin (q : ℚ) : Flt := ((q : WithTop ℚ) : WithBot (WithTop ℚ))

/-- `float('inf')`, as in `float('inf')` at lines 110-119 and 146. -/
def Flt.pinf : Flt := ((⊤ : WithTop ℚ) : WithBot (WithTop ℚ))

/-- `float('-inf')`, the initial value of every `*_max` field. -/
def Flt.ninf : Flt := (⊥ : WithBot (WithTop ℚ))

/-- Python's binary `min` (returns the first argument on ties). -/
def fmin (a b : Flt) : Flt := if a ≤ b then a else b

/-- Python's binary `max` (returns the first argument on ties). -/
def fmax (a b : Flt) : Flt := if b ≤ a then a else b

/-- `class ServerStats` (lines 108-131): five `[min, max]` pairs. -/
structure ServerStats where
  rtt_min : Flt
  rtt_max : Flt
  offset_min : Flt
  offset_max : Flt
  delay_min : Flt
  delay_max : Flt
  dispersion_min : Flt
  dispersion_max : Flt
  stratum_min : Flt
  stratum_max : Flt
deriving DecidableEq

/-- `ServerStats.__init__` (lines 109-119): every min is `float('inf')`,
every max is `float('-inf')` — the empty-interval sentinel. -/
def ServerStats.init : ServerStats :=
  { rtt_min := Flt.pinf, rtt_max := Flt.ninf
    offset_min := Flt.pinf, offset_max := Flt.ninf
    delay_min := Flt.pinf, delay_max := Flt.ninf
    dispersion_min := Flt.pinf, dispersion_max := Flt.ninf
    stratum_min := Flt.pinf, stratum_max := Flt.ninf }

/-- `ServerStats.update` (lines 121-131): widen each pair with the new
sample by Python `min` / `max`. -/
def ServerStats.update (s : ServerStats)
    (rtt offset delay dispersion stratum : ℚ) : ServerStats :=
  { rtt_min := fmin s.rtt_min (Flt.fin rtt)
    rtt_max := fmax s.rtt_max (Flt.fin rtt)
    offset_min := fmin s.offset_min (Flt.fin offset)
    offset_max := fmax s.offset_max (Flt.fin offset)
    delay_min := fmin s.delay_min (Flt.fin delay)
    delay_max := fmax s.delay_max (Flt.fin delay)
    dispersion_min := fmin s.dispersion_min (Flt.fin dispersion)
    dispersion_max := fmax s.dispersion_max (Flt.fin dispersion)
    stratum_min := fmin s.stratum_min (Flt.fin stratum)
    stratum_max := fmax s.stratum_max (Flt.fin stratum) }

/-- One successful sample: the five metric values passed to
`ServerStats.update` at line 143. -/
structure Sample where
  rtt : ℚ
  offset : ℚ
  delay : ℚ
  dispersion : ℚ
  stratum : ℚ
deriving DecidableEq

/-- Fold a sequence of successful updates over a starting state. -/
def ServerStats.updateAll (s : ServerStats) (l : List Sample) : ServerStats :=
  l.foldl (fun st x => st.update x.rtt x.offset x.delay x.dispersion x.stratum) s

/-- The stats after a sequence of successful updates starting from the
freshly-initialised state, as a `ServerStats()` instance evolves. -/
def applyUpdates (l : List Sample) : ServerStats :=
  ServerStats.init.updateAll l

theorem fmin_le_left (a b : Flt) : fmin a b ≤ a := by
  unfold fmin; split
  · exact le_refl a
  · exact le_of_not_le (by assumption)

theorem fmin_le_right (a b : Flt) : fmin a b ≤ b := by
  unfold fmin; split
  · assumption
  · exact le_refl b

theorem le_fmax_left (a b : Flt) : a ≤ fmax a b := by
  unfold fmax; split
  · exact le_refl a
  · exact le_of_not_le (by assumption)

theorem le_fmax_right (a b : Flt) : b ≤ fmax a b := by
  unfold fmax; split
  · assumption
  · exact le_refl b

/-- One update only widens each of the ten stored bounds. -/
theorem update_widens (s : ServerStats) (x : Sample) :
    (s.update x.rtt x.offset x.delay x.dispersion x.stratum).rtt_min ≤ s.rtt_min ∧
    s.rtt_max ≤ (s.update x.rtt x.offset x.delay x.dispersion x.stratum).rtt_max ∧
    (s.update x.rtt x.offset x.delay x.dispersion x.stratum).offset_min ≤ s.offset_min ∧
    s.offset_max ≤ (s.update x.rtt x.offset x.delay x.dispersion x.stratum).offset_max ∧
    (s.update x.rtt x.offset x.delay x.dispersion x.stratum).delay_min ≤ s.delay_min ∧
    s.delay_max ≤ (s.update x.rtt x.offset x.delay x.dispersion x.stratum).delay_max ∧
    (s.update x.rtt x.offset x.delay x.dispersion x.stratum).dispersion_min ≤ s.dispersion_min ∧
    s.dispersion_max ≤ (s.update x.rtt x.offset x.delay x.dispersion x.stratum).dispersion_max ∧
    (s.update x.rtt x.offset x.delay x.dispersion x.stratum).stratum_min ≤ s.stratum_min ∧
    s.stratum_max ≤ (s.update x.rtt x.offset x.delay x.dispersion x.stratum).stratum_max := by
  refine ⟨?_, ?_, ?_, ?_, ?_, ?_, ?_, ?_, ?_, ?_⟩ <;>
    simp only [ServerStats.update] <;>
    first
      | exact fmin_le_left _ _
      | exact le_fmax_left _ _

/-- A whole sequence of updates only widens each of the ten bounds. -/
theorem updateAll_widens (l : List Sample) (s : ServerStats) :
    (s.updateAll l).rtt_min ≤ s.rtt_min ∧ s.rtt_max ≤ (s.updateAll l).rtt_max ∧
    (s.updateAll l).offset_min ≤ s.offset_min ∧ s.offset_max ≤ (s.updateAll l).offset_max ∧
    (s.updateAll l).delay_min ≤ s.delay_min ∧ s.delay_max ≤ (s.updateAll l).delay_max ∧
    (s.updateAll l).dispersion_min ≤ s.dispersion_min ∧
    s.dispersion_max ≤ (s.updateAll l).dispersion_max ∧
    (s.updateAll l).stratum_min ≤ s.stratum_min ∧
    s.stratum_max ≤ (s.updateAll l).stratum_max := by
  induction l generalizing s with
  | nil =>
      simp [ServerStats.updateAll]
  | cons x t ih =>
      have hstep := update_widens s x
      have hrest := ih (s.update x.rtt x.offset x.delay x.dispersion x.stratum)
      have hall : s.updateAll (x :: t)
          = (s.update x.rtt x.offset x.delay x.dispersion x.stratum).updateAll t := rfl
      rw [hall]
      obtain ⟨a1, a2, a3, a4, a5, a6, a7, a8, a9, a10⟩ := hstep
      obtain ⟨b1, b2, b3, b4, b5, b6, b7, b8, b9, b10⟩ := hrest
      exact ⟨le_trans b1 a1, le_trans a2 b2, le_trans b3 a3, le_trans a4 b4,
        le_trans b5 a5, le_trans a6 b6, le_trans b7 a7, le_trans a8 b8,
        le_trans b9 a9, le_trans a10 b10⟩

/-- Every sample in the sequence is bounded by the final stored interval. -/
theorem updateAll_bounds (l : List Sample) (s : ServerStats) (x : Sample)
    (hx : x ∈ l) :
    (s.updateAll l).rtt_min ≤ Flt.fin x.rtt ∧ Flt.fin x.rtt ≤ (s.updateAll l).rtt_max ∧
    (s.updateAll l).offset_min ≤ Flt.fin x.offset ∧
    Flt.fin x.offset ≤ (s.updateAll l).offset_max ∧
    (s.updateAll l).delay_min ≤ Flt.fin x.delay ∧
    Flt.fin x.delay ≤ (s.updateAll l).delay_max ∧
    (s.updateAll l).dispersion_min ≤ Flt.fin x.dispersion ∧
    Flt.fin x.dispersion ≤ (s.updateAll l).dispersion_max ∧
    (s.updateAll l).stratum_min ≤ Flt.fin x.stratum ∧
    Flt.fin x.stratum ≤ (s.updateAll l).stratum_max := by
  induction l generalizing s with
  | nil => cases hx
  | cons a t ih =>
      have hall : s.updateAll (a :: t)
          = (s.update a.rtt a.offset a.delay a.dispersion a.stratum).updateAll t := rfl
      rcases List.mem_cons.mp hx with h | h
      · subst h
        rw [hall]
        have hw := updateAll_widens t (s.update x.rtt x.offset x.delay x.dispersion x.stratum)
        obtain ⟨b1, b2, b3, b4, b5, b6, b7, b8, b9, b10⟩ := hw
        simp only [ServerStats.update] at b1 b2 b3 b4 b5 b6 b7 b8 b9 b10
        exact ⟨le_trans b1 (fmin_le_right _ _), le_trans (le_fmax_right _ _) b2,
          le_trans b3 (fmin_le_right _ _), le_trans (le_fmax_right _ _) b4,
          le_trans b5 (fmin_le_right _ _), le_trans (le_fmax_right _ _) b6,
          le_trans b7 (fmin_le_right _ _), le_trans (le_fmax_right _ _) b8,
          le_trans b9 (fmin_le_right _ _), le_trans (le_fmax_right _ _) b10⟩
      · rw [hall]
        exact ih _ h

/-- C2: after any sequence of successful `ServerStats.update` calls
starting from `ServerStats.__init__`, the stored min is ≤ every sample
seen so far and the stored max is ≥ every sample seen so far, for each of
the five tracked metrics (rtt, offset, root delay, root dispersion,
stratum); moreover a single `update` never narrows any stored `[min, max]`
interval. "After each update" is captured by quantifying over every
sequence `l`, hence over every prefix of a longer run. -/
theorem c2_stats_min_max_bounds (l : List Sample) (x : Sample) (hx : x ∈ l)
    (s : ServerStats) (y : Sample) :
    ((applyUpdates l).rtt_min ≤ Flt.fin x.rtt ∧
      Flt.fin x.rtt ≤ (applyUpdates l).rtt_max ∧
      (applyUpdates l).offset_min ≤ Flt.fin x.offset ∧
      Flt.fin x.offset ≤ (applyUpdates l).offset_max ∧
      (applyUpdates l).delay_min ≤ Flt.fin x.delay ∧
      Flt.fin x.delay ≤ (applyUpdates l).delay_max ∧
      (applyUpdates l).dispersion_min ≤ Flt.fin x.dispersion ∧
      Flt.fin x.dispersion ≤ (applyUpdates l).dispersion_max ∧
      (applyUpdates l).stratum_min ≤ Flt.fin x.stratum ∧
      Flt.fin x.stratum ≤ (applyUpdates l).stratum_max) ∧
    ((s.update y.rtt y.offset y.delay y.dispersion y.stratum).rtt_min ≤ s.rtt_min ∧
      s.rtt_max ≤ (s.update y.rtt y.offset y.delay y.dispersion y.stratum).rtt_max ∧
      (s.update y.rtt y.offset y.delay y.dispersion y.stratum).offset_min ≤ s.offset_min ∧
      s.offset_max ≤ (s.update y.rtt y.offset y.delay y.dispersion y.stratum).offset_max ∧
      (s.update y.rtt y.offset y.delay y.dispersion y.stratum).delay_min ≤ s.delay_min ∧
      s.delay_max ≤ (s.update y.rtt y.offset y.delay y.dispersion y.stratum).delay_max ∧
      (s.update y.rtt y.offset y.delay y.dispersion y.stratum).dispersion_min ≤
        s.dispersion_min ∧
      s.dispersion_max ≤
        (s.update y.rtt y.offset y.delay y.dispersion y.stratum).dispersion_max ∧
      (s.update y.rtt y.offset y.delay y.dispersion y.stratum).stratum_min ≤ s.stratum_min ∧
      s.stratum_max ≤ (s.update y.rtt y.offset y.delay y.dispersion y.stratum).stratum_max) :=
  ⟨updateAll_bounds l ServerStats.init x hx, update_widens s y⟩

/-- Witness for C2 at the spec's own scenario: rtt samples 20, 5, 15
give an interval with min ≤ 5 and max ≥ 20, and one further update never
narrows a concrete state. -/
theorem c2_stats_min_max_bounds_witness :
    (applyUpdates
        [⟨20, 0, 0, 0, 2⟩, ⟨5, 1, 1, 1, 2⟩, ⟨15, -1, 2, 2, 3⟩]).rtt_min ≤ Flt.fin 20 ∧
    Flt.fin 20 ≤ (applyUpdates
        [⟨20, 0, 0, 0, 2⟩, ⟨5, 1, 1, 1, 2⟩, ⟨15, -1, 2, 2, 3⟩]).rtt_max := by
  have h := c2_stats_min_max_bounds
    [⟨20, 0, 0, 0, 2⟩, ⟨5, 1, 1, 1, 2⟩, ⟨15, -1, 2, 2, 3⟩]
    ⟨20, 0, 0, 0, 2⟩ (by simp) ServerStats.init ⟨30, 0, 0, 0, 2⟩
  exact ⟨h.1.1, h.1.2.1⟩

/-- `NTP_SERVERS` (lines 8-13). -/
def NTP_SERVERS : List String :=
  ["pool.ntp.org", "time.google.com", "time.cloudflare.com", "time.apple.com",
   "time.windows.com", "time.nist.gov", "ntp.ubuntu.com", "amazon.pool.ntp.org",
   "time.facebook.com", "ntp1.hetzner.de", "ntp.ripe.net", "ptbtime1.ptb.de",
   "ntp.se", "time.fu-berlin.de", "ntp.tuxfamily.net"]

/-- The fields of an `ntplib` response that `query_ntp_server` reads
(lines 142-144). The remaining fields are used only by the detail view
and do not affect any claim. -/
structure NTPResponse where
  offset : ℚ
  tx_time : ℚ
  root_delay : ℚ
  root_dispersion : ℚ
  stratum : ℚ
deriving DecidableEq

/-- Outcome of one network request that did not raise: the locally
measured elapsed wall-clock seconds (`end - start`, line 138-140) and
the protocol response. -/
structure NetOutcome where
  elapsed : ℚ
  resp : NTPResponse
deriving DecidableEq

/-- The network oracle: `none` models the `except` branch (any raised
error, including the 2 s request timeout); `some` a successful request. -/
abbrev Env : Type := String → Option NetOutcome

/-- The result tuple returned by `query_ntp_server` (lines 144 and 146):
`(server, rtt, offset, ntp_time, root_delay, root_dispersion, stratum,
response)`. -/
structure PollResult where
  server : String
  rtt : Flt
  offset : Option ℚ
  ntp_time : Option ℚ
  root_delay : Option ℚ
  root_dispersion : Option ℚ
  stratum : Option ℚ
  response : Option NTPResponse
deriving DecidableEq

/-- The sentinel tuple of the `except` branch (line 146):
`(server, float('inf'), None, None, None, None, None, None)`. -/
def failureResult (server : String) : PollResult :=
  { server := server, rtt := Flt.pinf, offset := none, ntp_time := none,
    root_delay := none, root_dispersion := none, stratum := none,
    response := none }

/-- The global `server_stats` dict (line 133), as an explicit map. -/
abbrev StatsMap : Type := String → ServerStats

/-- Initial `server_stats`: a fresh `ServerStats()` per key (line 133). -/
def initStatsMap : StatsMap := fun _ => ServerStats.init

/-- `query_ntp_server` (lines 135-146), state-passing form: takes the
current `server_stats[server]` entry and returns the updated entry
together with the result tuple. On success the rtt is the measured
elapsed time converted to milliseconds (line 141) and the stats entry is
widened (line 143); on any failure the stats entry is untouched and the
sentinel tuple is returned (line 146). -/
def query_ntp_server (env : Env) (st : ServerStats) (server : String) :
    ServerStats × PollResult :=
  match env server with
  | some o =>
      let rtt : ℚ := o.elapsed * 1000
      (st.update rtt o.resp.offset o.resp.root_delay o.resp.root_dispersion o.resp.stratum,
       { server := server, rtt := Flt.fin rtt, offset := some o.resp.offset,
         ntp_time := some o.resp.tx_time, root_delay := some o.resp.root_delay,
         root_dispersion := some o.resp.root_dispersion,
         stratum := some o.resp.stratum, response := some o.resp })
  | none => (st, failureResult server)

/-- The ordering used by `sorted(results, key=lambda x: x[1])`:
compare result tuples by their rtt field. -/
def rttLE (a b : PollResult) : Prop := a.rtt ≤ b.rtt

instance : DecidableRel rttLE := fun a b => inferInstanceAs (Decidable (a.rtt ≤ b.rtt))

instance : IsTotal PollResult rttLE := ⟨fun a b => le_total a.rtt b.rtt⟩

instance : IsTrans PollResult rttLE := ⟨fun _ _ _ => le_trans⟩

/-- `sorted(results, key=lambda x: x[1])` (line 151). CPython's sort is
stable; `List.insertionSort` realises the same stable ordering (an
earlier element is inserted before any later element of equal key). -/
def sortByRtt (l : List PollResult) : List PollResult :=
  List.insertionSort rttLE l

/-- The pre-sort result list of one poll cycle:
`list(executor.map(query_ntp_server, NTP_SERVERS))` at line 150
(`executor.map` preserves server-list order). -/
def rawResults (env : Env) (stats : StatsMap) : List PollResult :=
  NTP_SERVERS.map (fun s => (query_ntp_server env (stats s) s).2)

/-- `get_ntp_data` (lines 148-151), state-passing form: one query per
configured server (each worker writes only its own `server_stats` key,
so the pointwise state update is exact), then the stable sort by rtt. -/
def get_ntp_data (env : Env) (stats : StatsMap) : StatsMap × List PollResult :=
  (fun s => if s ∈ NTP_SERVERS then (query_ntp_server env (stats s) s).1 else stats s,
   sortByRtt (rawResults env stats))

theorem Flt.pinf_eq_top : Flt.pinf = (⊤ : Flt) := rfl

theorem Flt.fin_ne_pinf (q : ℚ) : Flt.fin q ≠ Flt.pinf := by
  intro h
  exact WithTop.coe_ne_top (WithBot.coe_inj.mp h)

/-- The server field of a query result is the queried server. -/
theorem query_server (env : Env) (st : ServerStats) (s : String) :
    (query_ntp_server env st s).2.server = s := by
  unfold query_ntp_server
  cases env s <;> rfl

/-- A query result carries `response = none` exactly when the request
failed, and in the model that coincides with `rtt = +∞`. -/
theorem query_response_iff (env : Env) (st : ServerStats) (s : String) :
    ((query_ntp_server env st s).2.response.isNone = true ↔
      (query_ntp_server env st s).2.rtt = Flt.pinf) ∧
    ((query_ntp_server env st s).2.response = none →
      (query_ntp_server env st s).2 = failureResult s) := by
  unfold query_ntp_server
  cases env s with
  | none => simp [failureResult]
  | some o =>
      refine ⟨⟨fun h => by simp at h, fun h => absurd h (Flt.fin_ne_pinf _)⟩, fun h => by simp at h⟩

theorem rawResults_char (env : Env) (stats : StatsMap) :
    ∀ r ∈ rawResults env stats, r.response.isNone = true ↔ r.rtt = Flt.pinf := by
  intro r hr
  obtain ⟨s, _, rfl⟩ := List.mem_map.mp hr
  exact (query_response_iff env (stats s) s).1

/-- Stability of `orderedInsert` for an element carrying the maximal key
`+∞`, over lists whose failed entries are exactly the `+∞` entries. -/
theorem filter_orderedInsert_pinf (x : PollResult) (l : List PollResult)
    (hx : x.rtt = Flt.pinf) (hpx : x.response.isNone = true)
    (hall : ∀ y ∈ l, y.response.isNone = true ↔ y.rtt = Flt.pinf) :
    (List.orderedInsert rttLE x l).filter (fun r => r.response.isNone) =
      x :: l.filter (fun r => r.response.isNone) := by
  induction l with
  | nil => simp [hpx]
  | cons y ys ih =>
      by_cases hle : rttLE x y
      · have hy : y.rtt = Flt.pinf := by
          have : Flt.pinf ≤ y.rtt := hx ▸ hle
          rw [Flt.pinf_eq_top] at this ⊢
          exact top_le_iff.mp this
        have hpy : y.response.isNone = true := (hall y (by simp)).mpr hy
        simp [List.orderedInsert, hle, hpx, hpy]
      · have hy : ¬ y.rtt = Flt.pinf := by
          intro h
          exact hle (show x.rtt ≤ y.rtt by rw [hx, h])
        have hpy : y.response.isNone = false := by
          cases h : y.response.isNone with
          | false => rfl
          | true => exact absurd ((hall y (by simp)).mp h) hy
        have ih2 := ih (fun z hz => hall z (by simp [hz]))
        simp only [List.orderedInsert, if_neg hle, List.filter_cons, hpy]
        simpa [hpy] using ih2

/-- Stability of `orderedInsert` for a non-failed element: the filtered
sequence of failed entries is untouched. -/
theorem filter_orderedInsert_success (x : PollResult) (l : List PollResult)
    (hpx : x.response.isNone = false) :
    (List.orderedInsert rttLE x l).filter (fun r => r.response.isNone) =
      l.filter (fun r => r.response.isNone) := by
  induction l with
  | nil => simp [hpx]
  | cons y ys ih =>
      by_cases hle : rttLE x y
      · simp [List.orderedInsert, hle, hpx]
      · cases hpy : y.response.isNone with
        | false => simp [List.orderedInsert, if_neg hle, List.filter_cons, hpy, ih]
        | true => simp [List.orderedInsert, if_neg hle, List.filter_cons, hpy, ih]

/-- The stable sort keeps the failed entries in their original relative
order: filtering the failed entries commutes with the sort. -/
theorem filter_sortByRtt (l : List PollResult)
    (hall : ∀ y ∈ l, y.response.isNone = true ↔ y.rtt = Flt.pinf) :
    (sortByRtt l).filter (fun r => r.response.isNone) =
      l.filter (fun r => r.response.isNone) := by
  induction l with
  | nil => rfl
  | cons x xs ih =>
      have hxs : ∀ y ∈ xs, y.response.isNone = true ↔ y.rtt = Flt.pinf :=
        fun y hy => hall y (by simp [hy])
      have hsorted_mem : ∀ y ∈ List.insertionSort rttLE xs,
          y.response.isNone = true ↔ y.rtt = Flt.pinf := by
        intro y hy
        exact hxs y ((List.mem_insertionSort rttLE).mp hy)
      cases hpx : x.response.isNone with
      | true =>
          have hx : x.rtt = Flt.pinf := (hall x (by simp)).mp hpx
          have h1 := filter_orderedInsert_pinf x (List.insertionSort rttLE xs) hx hpx hsorted_mem
          have h2 : sortByRtt (x :: xs) =
              List.orderedInsert rttLE x (List.insertionSort rttLE xs) := rfl
          rw [h2, h1, List.filter_cons, hpx]
          simpa [sortByRtt] using congrArg (List.cons x) (ih hxs)
      | false =>
          have h1 := filter_orderedInsert_success x (List.insertionSort rttLE xs) hpx
          have h2 : sortByRtt (x :: xs) =
              List.orderedInsert rttLE x (List.insertionSort rttLE xs) := rfl
          rw [h2, h1, List.filter_cons, hpx]
          simpa [sortByRtt] using ih hxs

/-- The failed entries of the raw result list are exactly the failed
servers, in server-list order, mapped to the sentinel tuple. -/
theorem filter_rawResults (env : Env) (stats : StatsMap) : ∀ (ss : List String),
    ((ss.map (fun s => (query_ntp_server env (stats s) s).2)).filter
        (fun r => r.response.isNone)) =
      (ss.filter (fun s => (env s).isNone)).map failureResult := by
  intro ss
  induction ss with
  | nil => rfl
  | cons s rest ih =>
      cases h : env s with
      | none =>
          simp only [List.map_cons, List.filter_cons]
          have hq : (query_ntp_server env (stats s) s).2 = failureResult s := by
            unfold query_ntp_server; rw [h]
          rw [hq]
          simp [failureResult, h, ih]
      | some o =>
          simp only [List.map_cons, List.filter_cons]
          have hq : (query_ntp_server env (stats s) s).2.response = some o.resp := by
            unfold query_ntp_server; rw [h]
          simp [hq, h, ih]

/-- Projections of `get_ntp_data`. -/
theorem get_ntp_data_snd (env : Env) (stats : StatsMap) :
    (get_ntp_data env stats).2 = sortByRtt (rawResults env stats) := by
  unfold get_ntp_data
  rfl

theorem get_ntp_data_fst (env : Env) (stats : StatsMap) :
    (get_ntp_data env stats).1 =
      fun s => if s ∈ NTP_SERVERS then (query_ntp_server env (stats s) s).1 else stats s := by
  unfold get_ntp_data
  rfl

/-- Failure / success status of every snapshot entry coincides with the
`+∞` rtt sentinel. -/
theorem snapshot_char (env : Env) (stats : StatsMap) :
    ∀ r ∈ (get_ntp_data env stats).2, r.response.isNone = true ↔ r.rtt = Flt.pinf := by
  intro r hr
  have hr2 : r ∈ rawResults env stats := by
    rw [get_ntp_data_snd, sortByRtt] at hr
    exact (List.mem_insertionSort rttLE).mp hr
  exact rawResults_char env stats r hr2

/-- C1: every poll cycle snapshot is sorted ascending by rtt; every
Timeout/Error entry has rtt = +∞ and sorts after every Success entry; the
failed entries keep the original server-list order among themselves
(stable sort). -/
theorem c1_snapshot_ordering (env : Env) (stats : StatsMap) :
    (∀ i j : Fin (get_ntp_data env stats).2.length, i < j →
      ((get_ntp_data env stats).2.get i).rtt ≤ ((get_ntp_data env stats).2.get j).rtt) ∧
    (∀ r ∈ (get_ntp_data env stats).2, r.response = none → r.rtt = Flt.pinf) ∧
    (∀ i j : Fin (get_ntp_data env stats).2.length,
      ((get_ntp_data env stats).2.get i).response = none →
      ((get_ntp_data env stats).2.get j).response ≠ none → j < i) ∧
    ((get_ntp_data env stats).2.filter (fun r => r.response.isNone) =
      (NTP_SERVERS.filter (fun s => (env s).isNone)).map failureResult) := by
  have hout : (get_ntp_data env stats).2 = sortByRtt (rawResults env stats) :=
    get_ntp_data_snd env stats
  have hsorted : List.Sorted rttLE (get_ntp_data env stats).2 := by
    rw [hout]
    exact List.sorted_insertionSort rttLE (rawResults env stats)
  have hchar := snapshot_char env stats
  have hpart2 : ∀ r ∈ (get_ntp_data env stats).2, r.response = none → r.rtt = Flt.pinf := by
    intro r hr hresp
    exact (hchar r hr).mp (by rw [hresp]; rfl)
  refine ⟨?_, hpart2, ?_, ?_⟩
  · intro i j hij
    exact hsorted.rel_get_of_lt hij
  · intro i j hi hj
    by_contra hcon
    have hij : i ≤ j := le_of_not_lt hcon
    rcases eq_or_lt_of_le hij with heq | hlt
    · rw [heq] at hi
      exact hj hi
    · have hle : rttLE ((get_ntp_data env stats).2.get i) ((get_ntp_data env stats).2.get j) :=
        hsorted.rel_get_of_lt hlt
      have hip : ((get_ntp_data env stats).2.get i).rtt = Flt.pinf :=
        hpart2 _ (List.get_mem _ i.1 i.2) hi
      have hjp : ((get_ntp_data env stats).2.get j).rtt = Flt.pinf := by
        have h1 : Flt.pinf ≤ ((get_ntp_data env stats).2.get j).rtt := hip ▸ hle
        rw [Flt.pinf_eq_top] at h1 ⊢
        exact top_le_iff.mp h1
      have := (hchar _ (List.get_mem _ j.1 j.2)).mpr hjp
      exact hj (Option.isNone_iff_eq_none.mp this)
  · rw [hout, filter_sortByRtt (rawResults env stats) (rawResults_char env stats)]
    exact filter_rawResults env stats NTP_SERVERS

/-- The all-failures network used in concrete witnesses. -/
def envNone : Env := fun _ => none

/-- Witness for C1: with every request failing, the sentinel entry for
the first configured server is in the snapshot with rtt = +∞, and the
failed entries are exactly the failed servers in original order. -/
theorem c1_snapshot_ordering_witness :
    (failureResult "pool.ntp.org").rtt = Flt.pinf ∧
    ((get_ntp_data envNone initStatsMap).2.filter (fun r => r.response.isNone) =
      (NTP_SERVERS.filter (fun s => (envNone s).isNone)).map failureResult) :=
  ⟨(c1_snapshot_ordering envNone initStatsMap).2.1 (failureResult "pool.ntp.org")
      (List.mem_of_elem_eq_true (by rfl)) rfl,
   (c1_snapshot_ordering envNone initStatsMap).2.2.2⟩

theorem map_server_rawResults (env : Env) (stats : StatsMap) : ∀ (ss : List String),
    ((ss.map (fun s => (query_ntp_server env (stats s) s).2)).map (fun r => r.server)) = ss := by
  intro ss
  induction ss with
  | nil => rfl
  | cons s rest ih =>
      simp only [List.map_cons, query_server, ih]

/-- C3: the snapshot of one poll cycle has exactly one entry per
configured server: its length equals the configured server count, and
its server fields are a permutation of the configured server list. The
fan-in (`executor.map` inside the `with` block followed by `sorted`)
makes the snapshot a function of the complete result list, so no partial
result set exists in the model. -/
theorem c3_snapshot_complete (env : Env) (stats : StatsMap) :
    (get_ntp_data env stats).2.length = NTP_SERVERS.length ∧
    ((get_ntp_data env stats).2.map (fun r => r.server)).Perm NTP_SERVERS := by
  have hperm : (sortByRtt (rawResults env stats)).Perm (rawResults env stats) :=
    List.perm_insertionSort rttLE (rawResults env stats)
  have hout : (get_ntp_data env stats).2 = sortByRtt (rawResults env stats) :=
    get_ntp_data_snd env stats
  constructor
  · rw [hout, hperm.length_eq]
    exact List.length_map NTP_SERVERS _
  · rw [hout]
    have h1 := hperm.map (fun r => r.server)
    have h2 : (rawResults env stats).map (fun r => r.server) = NTP_SERVERS :=
      map_server_rawResults env stats NTP_SERVERS
    rw [h2] at h1
    exact h1

/-- C4: a failed or timed-out request is degraded to the sentinel tuple
`(server, float('inf'), None, None, None, None, None, None)` by the
`except` branch: rtt is +∞, every other metric field is `None`, the stats
entry is untouched, and the enclosing poll cycle still produces a full
snapshot containing the sentinel — the failure never escapes as an
error (the model's `query_ntp_server` is a total function). -/
theorem c4_failure_sentinel (env : Env) (st : ServerStats) (server : String)
    (h : env server = none) :
    (query_ntp_server env st server).2 = failureResult server ∧
    (query_ntp_server env st server).1 = st ∧
    (server ∈ NTP_SERVERS → ∀ stats : StatsMap,
      failureResult server ∈ (get_ntp_data env stats).2) := by
  have hq : query_ntp_server env st server = (st, failureResult server) := by
    unfold query_ntp_server
    rw [h]
  refine ⟨by rw [hq], by rw [hq], ?_⟩
  intro hmem stats
  have hraw : failureResult server ∈ rawResults env stats := by
    have : (query_ntp_server env (stats server) server).2 = failureResult server := by
      unfold query_ntp_server
      rw [h]
    exact List.mem_map.mpr ⟨server, hmem, this⟩
  have hout : (get_ntp_data env stats).2 = sortByRtt (rawResults env stats) :=
    get_ntp_data_snd env stats
  rw [hout, sortByRtt]
  exact (List.mem_insertionSort rttLE).mpr hraw

/-- Witness for C4 at a concrete failing request. -/
theorem c4_failure_sentinel_witness :
    (query_ntp_server envNone ServerStats.init "time.google.com").2 =
      failureResult "time.google.com" ∧
    failureResult "time.google.com" ∈ (get_ntp_data envNone initStatsMap).2 :=
  ⟨(c4_failure_sentinel envNone ServerStats.init "time.google.com" rfl).1,
   (c4_failure_sentinel envNone ServerStats.init "time.google.com" rfl).2.2
     (by decide) initStatsMap⟩

/-- `ord('q')`, compared against `getch()` at lines 289 and 313. -/
def ord_q : Int := 113

/-- `ord('c')` (line 315). -/
def ord_c : Int := 99

/-- `ord('h')` (line 317). -/
def ord_h : Int := 104

/-- `ord('d')` (line 323). -/
def ord_d : Int := 100

/-- `curses.KEY_UP` (line 319). -/
def KEY_UP : Int := 259

/-- `curses.KEY_DOWN` (line 321). -/
def KEY_DOWN : Int := 258

/-- curses color constants used by the scheme table. -/
def COLOR_BLACK : ℕ := 0

def COLOR_GREEN : ℕ := 2

def COLOR_YELLOW : ℕ := 3

def COLOR_BLUE : ℕ := 4

def COLOR_MAGENTA : ℕ := 5

def COLOR_CYAN : ℕ := 6

def COLOR_WHITE : ℕ := 7

/-- One entry of `COLOR_SCHEMES` (lines 16-52). -/
structure ColorScheme where
  name : String
  bg : ℕ
  fg : ℕ
  header : ℕ
  highlight : ℕ
deriving DecidableEq

/-- `COLOR_SCHEMES` (lines 16-52): the five compiled-in schemes. -/
def COLOR_SCHEMES : List ColorScheme :=
  [{ name := "Light", bg := COLOR_WHITE, fg := COLOR_BLACK,
     header := COLOR_BLUE, highlight := COLOR_CYAN },
   { name := "Solarized Light", bg := COLOR_YELLOW, fg := COLOR_BLACK,
     header := COLOR_BLUE, highlight := COLOR_CYAN },
   { name := "Solarized Dark", bg := COLOR_BLACK, fg := COLOR_GREEN,
     header := COLOR_BLUE, highlight := COLOR_CYAN },
   { name := "Dark", bg := COLOR_BLACK, fg := COLOR_WHITE,
     header := COLOR_YELLOW, highlight := COLOR_MAGENTA },
   { name := "Blue", bg := COLOR_BLUE, fg := COLOR_WHITE,
     header := COLOR_YELLOW, highlight := COLOR_CYAN }]

/-- Control point of the interface. `table` is the main `while` loop of
`main`; `help` is the single `stdscr.getch()` at line 225 inside
`display_help`; `detail` is the `while True` getch loop at lines 287-290
inside `display_detailed_info` (rendering `data[selected_row]`). -/
inductive Mode where
  | table
  | help
  | detail
deriving DecidableEq

/-- The local state of `main` (lines 295-303) plus the global
`server_stats` map and the current control point. -/
structure AppState where
  current_scheme : ℕ
  selected_row : ℕ
  last_update : ℚ
  data : List PollResult
  stats : StatsMap
  mode : Mode

/-- The refresh check at lines 306-308:
`if current_time - last_update >= 5 or not data:` re-poll and stamp the
time, otherwise keep the cached snapshot. -/
def refreshStep (env : Env) (now : ℚ) (s : AppState) : AppState :=
  if 5 ≤ now - s.last_update ∨ s.data = [] then
    { s with stats := (get_ntp_data env s.stats).1,
             data := (get_ntp_data env s.stats).2,
             last_update := now }
  else s

/-- The key dispatch of the main loop (lines 312-324). Python's
`selected_row < len(data) - 1` on ints agrees with the ℕ reading: for an
empty list Python compares `0 < -1` and ℕ compares `0 < 0`, both false. -/
def handleKey (key : Int) (s1 : AppState) : Option AppState :=
  if key = ord_q then none
  else if key = ord_c then
    some { s1 with current_scheme := (s1.current_scheme + 1) % COLOR_SCHEMES.length }
  else if key = ord_h then some { s1 with mode := Mode.help }
  else if key = KEY_UP ∧ 0 < s1.selected_row then
    some { s1 with selected_row := s1.selected_row - 1 }
  else if key = KEY_DOWN ∧ s1.selected_row < s1.data.length - 1 then
    some { s1 with selected_row := s1.selected_row + 1 }
  else if key = ord_d then some { s1 with mode := Mode.detail }
  else some s1

/-- One `getch()`-granularity step of the whole interface. `key` is the
integer returned by `stdscr.getch()`; because `main` sets
`stdscr.timeout(100)` (line 294), every `getch()` on `stdscr` — the one
in the main loop, the one in `display_help` (line 225) and the one in
`display_detailed_info` (line 288) — returns after at most 100 ms,
yielding `-1` when no key was pressed. In `help` mode the result of
`getch()` is discarded and `display_help` returns (line 225); in
`detail` mode the loop breaks only on `ord('q')` (lines 287-290); in
`table` mode the loop body runs: refresh check, draw, dispatch
(`none` models `break`, i.e. process exit, on `q`). -/
def uiStep (env : Env) (now : ℚ) (key : Int) (s : AppState) : Option AppState :=
  match s.mode with
  | Mode.help => some { s with mode := Mode.table }
  | Mode.detail =>
      if key = ord_q then some { s with mode := Mode.table } else some s
  | Mode.table => handleKey key (refreshStep env now s)

/-- Every poll cycle produces exactly one entry per configured server. -/
theorem snapshot_length (env : Env) (stats : StatsMap) :
    (get_ntp_data env stats).2.length = NTP_SERVERS.length := by
  rw [get_ntp_data_snd, sortByRtt,
    (List.perm_insertionSort rttLE (rawResults env stats)).length_eq]
  exact List.length_map NTP_SERVERS _

/-- The refresh check never touches scheme, selected row or mode. -/
theorem refreshStep_fields (env : Env) (now : ℚ) (s : AppState) :
    (refreshStep env now s).current_scheme = s.current_scheme ∧
    (refreshStep env now s).selected_row = s.selected_row ∧
    (refreshStep env now s).mode = s.mode := by
  unfold refreshStep
  split <;> simp

/-- The refresh check either keeps the state or installs a complete
snapshot. -/
theorem refreshStep_cases (env : Env) (now : ℚ) (s : AppState) :
    refreshStep env now s = s ∨
    (refreshStep env now s).data.length = NTP_SERVERS.length := by
  unfold refreshStep
  split
  · right
    simpa using snapshot_length env s.stats
  · left
    rfl

/-- Characterisation of a successful key dispatch: the snapshot, the
poll clock and the stats are untouched, and the selected row moves only
by the two guarded arrow-key branches. -/
theorem handleKey_some (key : Int) (s1 s2 : AppState)
    (h : handleKey key s1 = some s2) :
    s2.data = s1.data ∧ s2.last_update = s1.last_update ∧ s2.stats = s1.stats ∧
    (s2.selected_row = s1.selected_row ∨
      (key = KEY_UP ∧ 0 < s1.selected_row ∧
        s2.selected_row = s1.selected_row - 1) ∨
      (key = KEY_DOWN ∧ s1.selected_row < s1.data.length - 1 ∧
        s2.selected_row = s1.selected_row + 1)) := by
  unfold handleKey at h
  split_ifs at h with h1 h2 h3 h4 h5 h6
  · injection h with h
    subst h
    exact ⟨rfl, rfl, rfl, Or.inl rfl⟩
  · injection h with h
    subst h
    exact ⟨rfl, rfl, rfl, Or.inl rfl⟩
  · injection h with h
    subst h
    exact ⟨rfl, rfl, rfl, Or.inr (Or.inl ⟨h4.1, h4.2, rfl⟩)⟩
  · injection h with h
    subst h
    exact ⟨rfl, rfl, rfl, Or.inr (Or.inr ⟨h5.1, h5.2, rfl⟩)⟩
  · injection h with h
    subst h
    exact ⟨rfl, rfl, rfl, Or.inl rfl⟩
  · injection h with h
    subst h
    exact ⟨rfl, rfl, rfl, Or.inl rfl⟩

/-- Any key other than `q` leaves the loop running. -/
theorem handleKey_not_q (key : Int) (s1 : AppState) (h : key ≠ ord_q) :
    ∃ s2, handleKey key s1 = some s2 := by
  unfold handleKey
  rw [if_neg h]
  split_ifs <;> exact ⟨_, rfl⟩

/-- C5 names this state: the Help view (inside `display_help`, at its
single `stdscr.getch()`), reached from a quiescent table state. -/
def helpStateW : AppState :=
  { current_scheme := 0, selected_row := 0, last_update := 0, data := [],
    stats := initStatsMap, mode := Mode.help }

/-- C5 (code evaluation at the failing input): with the Help view
active and no key pressed within the 100 ms window (`getch()` returns
`-1`), the program leaves the Help view and returns to the Table view —
`display_help`'s `stdscr.getch()` inherits `stdscr.timeout(100)` from
`main`, so the claimed blocking wait (and the code's own
"Wait for any key press" comment and "Press any key to return" help
text) does not hold: Help is exited without any key press. The state
equality also shows no refresh happened (data, stats, last_update are
unchanged). -/
theorem c5_help_exits_on_timeout :
    helpStateW.mode = Mode.help ∧
    uiStep envNone 0 (-1) helpStateW = some { helpStateW with mode := Mode.table } :=
  ⟨rfl, rfl⟩

/-- C8 names this state: the Detail view, inside
`display_detailed_info`'s `while True` loop. -/
def detailStateW : AppState :=
  { current_scheme := 0, selected_row := 0, last_update := 0, data := [],
    stats := initStatsMap, mode := Mode.detail }

/-- C8: in the Detail view, `q` (and only `q`) returns to the Table
view; every other key — and the timeout pseudo-key `-1`, i.e. no input —
leaves the state exactly as it was (the `while True` loop just polls
again), and the Detail view never terminates the process (the step is
never `none`). -/
theorem c8_detail_exit_only_q (env : Env) (now : ℚ) (key : Int) (s : AppState)
    (h : s.mode = Mode.detail) :
    (uiStep env now key s = some { s with mode := Mode.table } ↔ key = ord_q) ∧
    (key ≠ ord_q → uiStep env now key s = some s) ∧
    uiStep env now key s ≠ none := by
  obtain ⟨sch, sel, lu, dat, st, m⟩ := s
  have hm : m = Mode.detail := h
  subst hm
  by_cases hk : key = ord_q
  · simp [uiStep, hk]
  · simp [uiStep, hk]

/-- Witness for C8 at the exit key `q` (113). -/
theorem c8_detail_exit_only_q_witness :
    (uiStep envNone 0 113 detailStateW = some { detailStateW with mode := Mode.table } ↔
      (113 : Int) = ord_q) ∧
    ((113 : Int) ≠ ord_q → uiStep envNone 0 113 detailStateW = some detailStateW) ∧
    uiStep envNone 0 113 detailStateW ≠ none :=
  c8_detail_exit_only_q envNone 0 113 detailStateW rfl

/-- In the main loop (`table` mode) one step is the refresh check
followed by the key dispatch. -/
theorem uiStep_table (env : Env) (now : ℚ) (key : Int) (s : AppState)
    (hm : s.mode = Mode.table) :
    uiStep env now key s = handleKey key (refreshStep env now s) := by
  obtain ⟨sch, sel, lu, dat, st, m⟩ := s
  have hm2 : m = Mode.table := hm
  subst hm2
  rfl

/-- The selected-row invariant: either no snapshot has been installed
yet (the initial `data = []`, `selected_row = 0` of lines 296 and 303),
or the snapshot is complete and the selected row is a valid index. -/
def SelInv (s : AppState) : Prop :=
  (s.data = [] ∧ s.selected_row = 0) ∨
  (s.data.length = NTP_SERVERS.length ∧ s.selected_row < s.data.length)

theorem selInv_refreshStep (env : Env) (now : ℚ) (s : AppState)
    (hinv : SelInv s) : SelInv (refreshStep env now s) := by
  rcases refreshStep_cases env now s with heq | hlen
  · rw [heq]
    exact hinv
  · right
    refine ⟨hlen, ?_⟩
    rw [(refreshStep_fields env now s).2.1, hlen]
    rcases hinv with ⟨_, hs⟩ | ⟨hl, hs⟩
    · rw [hs]
      decide
    · rw [← hl]
      exact hs

/-- C7: the selected row always stays in range. Pressing Up at row 0
leaves it at 0; pressing Down at the last row leaves it unchanged; the
invariant `selected_row < len(data)` (or the pristine `data = []`,
`selected_row = 0` state) is preserved by every step; and the snapshot
never shrinks (every refresh installs a snapshot of the same full
length), so the re-clamping case is vacuously satisfied. -/
theorem c7_selected_row_clamped (env : Env) (now : ℚ) (key : Int)
    (s s' : AppState) (hinv : SelInv s)
    (hstep : uiStep env now key s = some s') :
    SelInv s' ∧
    (s.mode = Mode.table → key = KEY_UP → s.selected_row = 0 →
      s'.selected_row = 0) ∧
    (s.mode = Mode.table → key = KEY_DOWN → s.selected_row + 1 = s.data.length →
      s'.selected_row = s.selected_row) ∧
    (s.data ≠ [] → s'.data.length = s.data.length) := by
  cases hm : s.mode with
  | help =>
      have hstep2 : some { s with mode := Mode.table } = some s' := by
        rw [← hstep]
        obtain ⟨sch, sel, lu, dat, st, m⟩ := s
        have hm2 : m = Mode.help := hm
        subst hm2
        rfl
      injection hstep2 with h2
      subst h2
      refine ⟨?_, ?_, ?_, fun _ => rfl⟩
      · rcases hinv with ⟨h1, h2⟩ | ⟨h1, h2⟩
        · exact Or.inl ⟨h1, h2⟩
        · exact Or.inr ⟨h1, h2⟩
      · intro hmt
        exact Mode.noConfusion hmt
      · intro hmt
        exact Mode.noConfusion hmt
  | detail =>
      have hstep2 : (if key = ord_q then some { s with mode := Mode.table }
          else some s) = some s' := by
        rw [← hstep]
        obtain ⟨sch, sel, lu, dat, st, m⟩ := s
        have hm2 : m = Mode.detail := hm
        subst hm2
        rfl
      have hfields : s'.data = s.data ∧ s'.selected_row = s.selected_row := by
        by_cases hk : key = ord_q
        · rw [if_pos hk] at hstep2
          injection hstep2 with h2
          subst h2
          exact ⟨rfl, rfl⟩
        · rw [if_neg hk] at hstep2
          injection hstep2 with h2
          subst h2
          exact ⟨rfl, rfl⟩
      refine ⟨?_, ?_, ?_, fun _ => by rw [hfields.1]⟩
      · rcases hinv with ⟨h1, h2⟩ | ⟨h1, h2⟩
        · exact Or.inl ⟨by rw [hfields.1, h1], by rw [hfields.2, h2]⟩
        · exact Or.inr ⟨by rw [hfields.1]; exact h1, by rw [hfields.1, hfields.2]; exact h2⟩
      · intro hmt
        exact Mode.noConfusion hmt
      · intro hmt
        exact Mode.noConfusion hmt
  | table =>
      rw [uiStep_table env now key s hm] at hstep
      obtain ⟨hdata, hlu, hstats, hsel⟩ :=
        handleKey_some key (refreshStep env now s) s' hstep
      have hinv_r : SelInv (refreshStep env now s) := selInv_refreshStep env now s hinv
      have hrsel : (refreshStep env now s).selected_row = s.selected_row :=
        (refreshStep_fields env now s).2.1
      have hrlen : (refreshStep env now s).data.length = s.data.length ∨
          (refreshStep env now s).data.length = NTP_SERVERS.length := by
        rcases refreshStep_cases env now s with heq | hlen
        · left
          rw [heq]
        · right
          exact hlen
      refine ⟨?_, ?_, ?_, ?_⟩
      · rcases hsel with h0 | ⟨_, hpos, hdec⟩ | ⟨_, hlt, hinc⟩
        · rcases hinv_r with ⟨h1, h2⟩ | ⟨h1, h2⟩
          · exact Or.inl ⟨by rw [hdata, h1], by rw [h0, h2]⟩
          · exact Or.inr ⟨by rw [hdata]; exact h1, by rw [h0, hdata]; exact h2⟩
        · rcases hinv_r with ⟨h1, h2⟩ | ⟨h1, h2⟩
          · rw [h2] at hpos
            exact absurd hpos (by decide)
          · refine Or.inr ⟨by rw [hdata]; exact h1, ?_⟩
            rw [hdec, hdata]
            omega
        · rcases hinv_r with ⟨h1, h2⟩ | ⟨h1, h2⟩
          · rw [h1] at hlt
            simp at hlt
          · refine Or.inr ⟨by rw [hdata]; exact h1, ?_⟩
            rw [hinc, hdata]
            omega
      · intro _ hku hs0
        rcases hsel with h0 | ⟨_, hpos, _⟩ | ⟨hkd, _, _⟩
        · rw [h0, hrsel, hs0]
        · rw [hrsel, hs0] at hpos
          exact absurd hpos (by decide)
        · rw [hku] at hkd
          exact absurd hkd (by decide)
      · intro _ hkd hlast
        rcases hinv with ⟨h1, h2⟩ | ⟨h1, h2⟩
        · rw [h1, h2] at hlast
          simp at hlast
        · have hrl : (refreshStep env now s).data.length = s.data.length := by
            rcases hrlen with h | h
            · exact h
            · rw [h, ← h1]
          rcases hsel with h0 | ⟨hku, _, _⟩ | ⟨_, hlt, _⟩
          · rw [h0, hrsel]
          · rw [hkd] at hku
            exact absurd hku (by decide)
          · rw [hrsel, hrl] at hlt
            omega
      · intro hne
        rcases hinv with ⟨h1, _⟩ | ⟨h1, _⟩
        · exact absurd h1 hne
        · rw [hdata]
          rcases hrlen with h | h
          · exact h
          · rw [h, ← h1]

/-- C7 and C10 name this state: the state at the top of the first loop
iteration (`last_update = 0`, `data = []`, `selected_row = 0`,
`current_scheme = 0`, lines 295-303). -/
def tableStateW : AppState :=
  { current_scheme := 0, selected_row := 0, last_update := 0, data := [],
    stats := initStatsMap, mode := Mode.table }

/-- The state after the first refresh against the all-failures network. -/
def refreshedStateW : AppState :=
  { current_scheme := 0, selected_row := 0, last_update := 0,
    data := (get_ntp_data envNone initStatsMap).2,
    stats := (get_ntp_data envNone initStatsMap).1, mode := Mode.table }

theorem tableStateW_step : uiStep envNone 0 259 tableStateW = some refreshedStateW := by
  rw [uiStep_table envNone 0 259 tableStateW rfl]
  have h1 : refreshStep envNone 0 tableStateW = refreshedStateW := by
    unfold refreshStep
    rw [if_pos (show 5 ≤ (0 : ℚ) - tableStateW.last_update ∨ tableStateW.data = []
      from Or.inr rfl)]
    rfl
  rw [h1]
  rfl

/-- Witness for C7: an Up press on the very first iteration (selected
row 0) keeps the selected row at 0, preserves the invariant and keeps
the snapshot length. -/
theorem c7_selected_row_clamped_witness :
    SelInv refreshedStateW ∧
    (tableStateW.mode = Mode.table → (259 : Int) = KEY_UP →
      tableStateW.selected_row = 0 → refreshedStateW.selected_row = 0) ∧
    (tableStateW.mode = Mode.table → (259 : Int) = KEY_DOWN →
      tableStateW.selected_row + 1 = tableStateW.data.length →
      refreshedStateW.selected_row = tableStateW.selected_row) ∧
    (tableStateW.data ≠ [] → refreshedStateW.data.length = tableStateW.data.length) :=
  c7_selected_row_clamped envNone 0 259 tableStateW refreshedStateW
    (Or.inl ⟨rfl, rfl⟩) tableStateW_step

/-- A `c` press in the Table view: the colour-scheme index advances by
one modulo the scheme count, whatever the refresh check did. -/
theorem uiStep_c (env : Env) (t : ℚ) (s : AppState) (hm : s.mode = Mode.table) :
    uiStep env t ord_c s = some { refreshStep env t s with
      current_scheme :=
        ((refreshStep env t s).current_scheme + 1) % COLOR_SCHEMES.length } := by
  rw [uiStep_table env t ord_c s hm]
  unfold handleKey
  rw [if_neg (by decide : ¬ ((ord_c : Int) = ord_q)), if_pos rfl]

/-- A sequence of `c` presses, one per loop iteration, at the given
sequence of loop times. -/
def runCPresses (env : Env) (ts : List ℚ) (s : AppState) : Option AppState :=
  match ts with
  | [] => some s
  | t :: rest => (uiStep env t ord_c s).bind (runCPresses env rest)

/-- C9: pressing `c` N times in the Table view sets the colour-scheme
index to `(start + N) % len(COLOR_SCHEMES)`, the view stays in Table
mode, and the scheme list has exactly 5 entries (so 5 presses restore
the index). -/
theorem c9_color_cycle (env : Env) (ts : List ℚ) (s : AppState)
    (hm : s.mode = Mode.table) (hb : s.current_scheme < COLOR_SCHEMES.length) :
    (∃ s2, runCPresses env ts s = some s2 ∧
      s2.current_scheme = (s.current_scheme + ts.length) % COLOR_SCHEMES.length ∧
      s2.mode = Mode.table) ∧
    COLOR_SCHEMES.length = 5 := by
  refine ⟨?_, rfl⟩
  induction ts generalizing s with
  | nil =>
      refine ⟨s, rfl, ?_, hm⟩
      simp [Nat.mod_eq_of_lt hb]
  | cons t rest ih =>
      have hstep := uiStep_c env t s hm
      have hm2 : ({ refreshStep env t s with
          current_scheme :=
            ((refreshStep env t s).current_scheme + 1) % COLOR_SCHEMES.length } :
            AppState).mode = Mode.table := by
        show (refreshStep env t s).mode = Mode.table
        rw [(refreshStep_fields env t s).2.2, hm]
      have hb2 : ({ refreshStep env t s with
          current_scheme :=
            ((refreshStep env t s).current_scheme + 1) % COLOR_SCHEMES.length } :
            AppState).current_scheme < COLOR_SCHEMES.length := by
        show ((refreshStep env t s).current_scheme + 1) % COLOR_SCHEMES.length
            < COLOR_SCHEMES.length
        exact Nat.mod_lt _ (by decide)
      obtain ⟨s3, hrun, hsch, hm3⟩ := ih _ hm2 hb2
      refine ⟨s3, ?_, ?_, hm3⟩
      · show (uiStep env t ord_c s).bind (runCPresses env rest) = some s3
        rw [hstep]
        simpa using hrun
      · rw [hsch]
        have h4 : ({ refreshStep env t s with
            current_scheme :=
              ((refreshStep env t s).current_scheme + 1) % COLOR_SCHEMES.length } :
              AppState).current_scheme
            = (s.current_scheme + 1) % COLOR_SCHEMES.length := by
          show ((refreshStep env t s).current_scheme + 1) % COLOR_SCHEMES.length = _
          rw [(refreshStep_fields env t s).1]
        rw [h4]
        have h5 : COLOR_SCHEMES.length = 5 := rfl
        rw [h5, List.length_cons]
        omega

/-- Witness for C9: five `c` presses starting at scheme 0 land back on
`(0 + 5) % 5 = 0`. -/
theorem c9_color_cycle_witness :
    (∃ s2, runCPresses envNone [0, 0, 0, 0, 0] tableStateW = some s2 ∧
      s2.current_scheme =
        (tableStateW.current_scheme +
          ([0, 0, 0, 0, 0] : List ℚ).length) % COLOR_SCHEMES.length ∧
      s2.mode = Mode.table) ∧
    COLOR_SCHEMES.length = 5 :=
  c9_color_cycle envNone [0, 0, 0, 0, 0] tableStateW rfl (by decide)

/-- The refreshed state installed by the then-branch of the refresh
check (lines 307-308): new stats, new snapshot, stamped clock. -/
def refreshedOf (env : Env) (now : ℚ) (s : AppState) : AppState :=
  { s with stats := (get_ntp_data env s.stats).1,
           data := (get_ntp_data env s.stats).2,
           last_update := now }

theorem mk_update_fields (s : AppState) (p : StatsMap × List PollResult) (now : ℚ) :
    ({ s with stats := p.1, data := p.2, last_update := now } : AppState).data = p.2 ∧
    ({ s with stats := p.1, data := p.2, last_update := now } : AppState).last_update = now ∧
    ({ s with stats := p.1, data := p.2, last_update := now } : AppState).stats = p.1 :=
  ⟨rfl, rfl, rfl⟩

theorem refreshedOf_fields (env : Env) (now : ℚ) (s : AppState) :
    (refreshedOf env now s).data = (get_ntp_data env s.stats).2 ∧
    (refreshedOf env now s).last_update = now ∧
    (refreshedOf env now s).stats = (get_ntp_data env s.stats).1 := by
  unfold refreshedOf
  exact mk_update_fields s (get_ntp_data env s.stats) now

/-- C10: with an empty cached snapshot the refresh fires regardless of
the timer (`or not data`, line 306), so the loop installs a complete
snapshot — and every key outcome other than `q` is then handled with
that full-length snapshot in place. -/
theorem c10_refresh_on_empty (env : Env) (now : ℚ) (key : Int) (s : AppState)
    (hm : s.mode = Mode.table) (hd : s.data = []) :
    (refreshStep env now s = refreshedOf env now s) ∧
    (key = ord_q → uiStep env now key s = none) ∧
    (key ≠ ord_q → ∃ s2, uiStep env now key s = some s2 ∧
      s2.data = (get_ntp_data env s.stats).2 ∧
      s2.data.length = NTP_SERVERS.length ∧ s2.last_update = now) := by
  have hr : refreshStep env now s = refreshedOf env now s := by
    unfold refreshStep refreshedOf
    rw [if_pos (Or.inr hd)]
  refine ⟨hr, ?_, ?_⟩
  · intro hk
    rw [uiStep_table env now key s hm]
    unfold handleKey
    rw [if_pos hk]
  · intro hk
    obtain ⟨s2, h2⟩ := handleKey_not_q key (refreshStep env now s) hk
    obtain ⟨hdata, hlu, _, _⟩ := handleKey_some key _ s2 h2
    refine ⟨s2, ?_, ?_, ?_, ?_⟩
    · rw [uiStep_table env now key s hm]
      exact h2
    · rw [hdata, hr, (refreshedOf_fields env now s).1]
    · rw [hdata, hr, (refreshedOf_fields env now s).1]
      exact snapshot_length env s.stats
    · rw [hlu, hr, (refreshedOf_fields env now s).2.1]

/-- Witness for C10 at the very first loop iteration (empty cache, no
key pressed, timer not elapsed): a full 15-entry snapshot is installed. -/
theorem c10_refresh_on_empty_witness :
    ∃ s2, uiStep envNone 0 (-1) tableStateW = some s2 ∧
      s2.data = (get_ntp_data envNone tableStateW.stats).2 ∧
      s2.data.length = NTP_SERVERS.length ∧ s2.last_update = 0 :=
  (c10_refresh_on_empty envNone 0 (-1) tableStateW rfl rfl).2.2 (by decide)

/-- The content of one table row as built by `draw_table`
(lines 167-188): the `if rtt != float('inf')` branch formats the metric
values together with the `server_stats[server]` bounds; the `else`
branch is the fixed placeholder row
`server, 'Timeout', 'N/A', 'N/A', 'N/A', 'N/A', 'N/A'`. -/
inductive TableRow where
  | success (server : String) (rtt : Flt)
      (offset ntp_time root_delay root_dispersion stratum : Option ℚ)
      (stats : ServerStats)
  | failure (server rttCell offsetCell timeCell delayCell dispCell
      stratumCell : String)
deriving DecidableEq

/-- One data row of `draw_table` (lines 175-187). -/
def renderRow (stats : StatsMap) (r : PollResult) : TableRow :=
  if r.rtt ≠ Flt.pinf then
    TableRow.success r.server r.rtt r.offset r.ntp_time r.root_delay
      r.root_dispersion r.stratum (stats r.server)
  else TableRow.failure r.server "Timeout" "N/A" "N/A" "N/A" "N/A" "N/A"

/-- The stats map after a sequence of poll cycles (one `get_ntp_data`
call per cycle), starting from a given map. -/
def statsAfter (cycles : List Env) (stats : StatsMap) : StatsMap :=
  cycles.foldl (fun m env => (get_ntp_data env m).1) stats

/-- A server whose request fails in every cycle keeps its stats entry. -/
theorem statsAfter_untouched (server : String) :
    ∀ (cycles : List Env) (m : StatsMap), (∀ env ∈ cycles, env server = none) →
      statsAfter cycles m server = m server := by
  intro cycles
  induction cycles with
  | nil =>
      intro m _
      rfl
  | cons e rest ih =>
      intro m hall
      have hstep : (get_ntp_data e m).1 server = m server := by
        simp only [get_ntp_data_fst]
        by_cases hmem : server ∈ NTP_SERVERS
        · rw [if_pos hmem]
          have he : e server = none := hall e (by simp)
          unfold query_ntp_server
          rw [he]
        · rw [if_neg hmem]
      have hfold : statsAfter (e :: rest) m = statsAfter rest ((get_ntp_data e m).1) :=
        rfl
      rw [hfold, ih _ (fun env henv => hall env (by simp [henv])), hstep]

/-- C6: a server that has never been successfully polled keeps the
empty-interval sentinel `[+∞, -∞]` in all five metric pairs, and its
rendered table row is the fixed placeholder row (`'Timeout'` / `'N/A'`
text cells) — the raw ±∞ sentinels never appear in the rendered row,
which carries no numeric field at all. -/
theorem c6_never_polled_placeholder (cycles : List Env) (server : String)
    (h : ∀ env ∈ cycles, env server = none) :
    statsAfter cycles initStatsMap server = ServerStats.init ∧
    ServerStats.init.rtt_min = Flt.pinf ∧ ServerStats.init.rtt_max = Flt.ninf ∧
    ServerStats.init.offset_min = Flt.pinf ∧ ServerStats.init.offset_max = Flt.ninf ∧
    ServerStats.init.delay_min = Flt.pinf ∧ ServerStats.init.delay_max = Flt.ninf ∧
    ServerStats.init.dispersion_min = Flt.pinf ∧
    ServerStats.init.dispersion_max = Flt.ninf ∧
    ServerStats.init.stratum_min = Flt.pinf ∧ ServerStats.init.stratum_max = Flt.ninf ∧
    (∀ env ∈ cycles, ∀ m : StatsMap,
      renderRow m (query_ntp_server env (m server) server).2 =
        TableRow.failure server "Timeout" "N/A" "N/A" "N/A" "N/A" "N/A") := by
  refine ⟨statsAfter_untouched server cycles initStatsMap h,
    rfl, rfl, rfl, rfl, rfl, rfl, rfl, rfl, rfl, rfl, ?_⟩
  intro env henv m
  have he : env server = none := h env henv
  have hq : (query_ntp_server env (m server) server).2 = failureResult server := by
    unfold query_ntp_server
    rw [he]
  rw [hq]
  unfold renderRow
  rw [if_neg (fun hne => hne rfl)]
  rfl

/-- Witness for C6: one all-failures cycle leaves the first server's
stats at the sentinel and renders the placeholder row for it. -/
theorem c6_never_polled_placeholder_witness :
    statsAfter [envNone] initStatsMap "pool.ntp.org" = ServerStats.init ∧
    renderRow initStatsMap
        (query_ntp_server envNone (initStatsMap "pool.ntp.org") "pool.ntp.org").2 =
      TableRow.failure "pool.ntp.org" "Timeout" "N/A" "N/A" "N/A" "N/A" "N/A" := by
  have h := c6_never_polled_placeholder [envNone] "pool.ntp.org"
    (by intro e he
        simp only [List.mem_singleton] at he
        subst he
        rfl)
  exact ⟨h.1, h.2.2.2.2.2.2.2.2.2.2.2 envNone (by simp) initStatsMap⟩
